import Mathlib

/-!
# Verification of the Multimodal-Toolkit data-loading pipeline (`load_data.py`)

A shallow embedding of `src/load_data.py` (feature preparation for
heterogeneous tabular data: categorical union-fit encoding, numerical
median imputation and normalization, text aggregation, per-split feature
bundles), together with theorems settling the specification's claims.

Tables (`pandas.DataFrame` read with `index_col=0`) are modelled as a
column-name list plus a list of `(label, row)` pairs; a row is a list of
cell values aligned with the column list.  Missing numeric cells (`NaN`)
are `Value.num Option.none`.  Fallible Python code (assertions, raised
errors, out-of-range indexing) is modelled with `Except String`.
-/

namespace MMTK

/-- A cell value of a table: a numeric cell (with `Option.none` standing for
`NaN`) or a string cell. -/
inductive Value where
  | num (q : Option ℚ) : Value
  | str (s : String) : Value
deriving DecidableEq

/-- Whether a cell is missing (`NaN`): only a numeric cell holding no value. -/
def Value.isNA : Value → Bool
  | .num Option.none => true
  | _ => false

/-- The numeric reading of a cell; non-numeric and missing cells read as
`Option.none` (`NaN`). -/
def Value.toNum : Value → Option ℚ
  | .num q => q
  | .str _ => Option.none

/-- The string form of a cell, as Python's `str` produces for the purposes of
`texts.astype('str')`: a missing cell prints as `"nan"`. -/
def pyStr : Value → String
  | .str s => s
  | .num Option.none => "nan"
  | .num (some q) =>
      if q.den = 1 then toString q.num else toString q.num ++ "/" ++ toString q.den

/-- A table (`pandas.DataFrame` with `index_col=0`): named columns and rows
keyed by an index label.  Each row is a `(label, cells)` pair; the cells are
positionally aligned with `cols`. -/
structure DF where
  cols : List String
  data : List (Int × List Value)
deriving DecidableEq

/-- The index of a table: its row labels in order (`df.index`). -/
def DF.index (df : DF) : List Int := df.data.map Prod.fst

/-- Cell access by column name within one row (`row[c]`): the value at the
position of the first column named `c`, defaulting to `NaN` when absent. -/
def rowGet (cols : List String) (r : List Value) (c : String) : Value :=
  (r.get? (List.indexOf c cols)).getD (Value.num Option.none)

/-- The values of one column, top to bottom (`df[c]`). -/
def colValues (df : DF) (c : String) : List Value :=
  df.data.map (fun p => rowGet df.cols p.2 c)

/-- `get_matching_cols` (load_data.py:226-227): the table's columns satisfying
the predicate, in table column order. -/
def getMatchingCols (df : DF) (f : DF → String → Bool) : List String :=
  df.cols.filter (fun c => f df c)

/-- The argument of `convert_to_func` (load_data.py:180): Python `None`, a
function, a list, a set, or any other object. -/
inductive ColSpec where
  | noSpec : ColSpec
  | funcSpec (f : DF → String → Bool) : ColSpec
  | listSpec (l : List String) : ColSpec
  | setSpec (l : List String) : ColSpec
  | otherSpec : ColSpec

/-- `convert_to_func` (load_data.py:180-188): `None` becomes an always-false
predicate, a function is used as-is, a list or set becomes a membership test,
and anything else fails the `assert` (an `AssertionError`). -/
def convertToFunc : ColSpec → Except String (DF → String → Bool)
  | .noSpec => .ok (fun _ _ => false)
  | .funcSpec f => .ok f
  | .listSpec l => .ok (fun _ x => l.contains x)
  | .setSpec l => .ok (fun _ x => l.contains x)
  | .otherSpec => .error "AssertionError"

/-- Insert into a sorted list of rationals (ascending). -/
def insertSorted (x : ℚ) : List ℚ → List ℚ
  | [] => [x]
  | y :: ys => if x ≤ y then x :: y :: ys else y :: insertSorted x ys

/-- Sort a list of rationals ascending (insertion sort). -/
def sortQ (xs : List ℚ) : List ℚ := xs.foldr insertSorted []

/-- The median as `pandas.Series.median` computes it: `NaN` values are
skipped; the median of no values is `NaN`; for an odd count it is the middle
sorted value, for an even count the mean of the two middle sorted values. -/
def medianQ (xs : List ℚ) : Option ℚ :=
  let s := sortQ xs
  let n := s.length
  if n = 0 then Option.none
  else if n % 2 = 1 then s.get? (n / 2)
  else match s.get? (n / 2 - 1), s.get? (n / 2) with
    | some a, some b => some ((a + b) / 2)
    | _, _ => Option.none

/-- The median of a column's non-missing numeric values (`df[c].median()`). -/
def colMedian (df : DF) (c : String) : Option ℚ :=
  medianQ ((df.data.map (fun p => (rowGet df.cols p.2 c).toNum)).filterMap id)

/-- `fillna` on one cell: a missing cell becomes the column's median when the
median exists; every other cell is unchanged. -/
def imputeVal (med : Option ℚ) : Value → Value
  | .num Option.none =>
      match med with
      | some m => .num (some m)
      | Option.none => .num Option.none
  | v => v

/-- `fillna` on one row: cells in the selected numerical columns are
median-imputed, all the others are unchanged. -/
def imputeRow (cols numCols : List String) (meds : String → Option ℚ)
    (r : List Value) : List Value :=
  (cols.zip r).map (fun q => if numCols.contains q.1 then imputeVal (meds q.1) q.2 else q.2)

/-- `load_num_feats` (load_data.py:217-223): resolve the numerical columns,
write the median-imputed values back into the table
(`df[num_cols] = df[num_cols].fillna(df[num_cols].median())`, an in-place
mutation of the caller's table), and return the numerical matrix
(`df[num_cols].values`) — `None` when no column matches — together with the
mutated table. -/
def loadNumFeats (df : DF) (f : DF → String → Bool) :
    Option (List (List (Option ℚ))) × DF :=
  let numCols := getMatchingCols df f
  let df' : DF := ⟨df.cols, df.data.map (fun p => (p.1, imputeRow df.cols numCols (colMedian df) p.2))⟩
  if numCols.isEmpty then (Option.none, df')
  else (some (df'.data.map (fun p => numCols.map (fun c => (rowGet df'.cols p.2 c).toNum))), df')

/-- Modelled from the spec: `CategoricalFeatures.fit_transform` lives in
`encode_features.py`, which is not under `src/`.  Per spec §4.2, for the
pass-through scheme (`encode_type` `None` or `"none"`, the only scheme that
reaches the per-split pass in the orchestrated flows, since `ohe`/`binary`
are downgraded to `None` after the union fit) the raw categorical columns are
passed through unmodified and the feature names equal the input columns. -/
def catFitTransform (df : DF) (catCols : List String) (_encodeType : Option String) :
    List (List Value) :=
  df.data.map (fun p => catCols.map (fun c => rowGet df.cols p.2 c))

/-- `load_cat_feats` (load_data.py:208-214): resolve the categorical columns;
`None` when no column matches, otherwise the fit-transformed matrix. -/
def loadCatFeats (df : DF) (f : DF → String → Bool) (encodeType : Option String) :
    Option (List (List Value)) :=
  let catCols := getMatchingCols df f
  if catCols.isEmpty then Option.none
  else some (catFitTransform df catCols encodeType)

/-- `load_cat_and_num_feats` (load_data.py:202-205): categorical features
first (from the unmutated table), then numerical features, whose loading
mutates the table in place; the mutated table is returned alongside. -/
def loadCatAndNumFeats (df : DF) (catF numF : DF → String → Bool)
    (encodeType : Option String) :
    Option (List (List Value)) × Option (List (List (Option ℚ))) × DF :=
  let catFeats := loadCatFeats df catF encodeType
  let (numFeats, df') := loadNumFeats df numF
  (catFeats, numFeats, df')

/-- The state of the sklearn numerical transformer (`PowerTransformer` /
`QuantileTransformer`): its method string, how many times `fit` has run, and
the fitted statistics.  The statistics of these estimators are a function of
the matrix passed to `fit`; the state stores that matrix as the statistics. -/
structure NumTransformer where
  method : String
  fitCount : Nat
  stats : Option (List (List (Option ℚ)))
deriving DecidableEq

/-- `transformer.fit(m)`: estimate and store statistics from `m`. -/
def NumTransformer.fit (t : NumTransformer) (m : List (List (Option ℚ))) :
    NumTransformer :=
  { t with fitCount := t.fitCount + 1, stats := some m }

/-- Modelled from the spec: the numeric output of sklearn's `transform`
(external library) is outside the claims' scope; what the spec fixes is the
lifecycle — `transform` applies previously fitted parameters and never
re-estimates them (spec §3 NumericalTransformerState, glossary "Transform"),
so the state comes back unchanged. -/
def NumTransformer.transform (t : NumTransformer) (m : List (List (Option ℚ))) :
    NumTransformer × List (List (Option ℚ)) :=
  (t, m)

/-- `normalize_numerical_feats` (load_data.py:174-177): when either the
matrix or the transformer is absent the matrix is returned untouched;
otherwise the fitted transformer's `transform` is applied.  The (possibly
absent) transformer state is threaded through explicitly. -/
def normalizeNumericalFeats (numFeats : Option (List (List (Option ℚ))))
    (t : Option NumTransformer) :
    Option (List (List (Option ℚ))) × Option NumTransformer :=
  match numFeats, t with
  | Option.none, t => (Option.none, t)
  | feats, Option.none => (feats, Option.none)
  | some m, some tr =>
      let (tr', m') := tr.transform m
      (some m', some tr')

/-- `agg_text_columns_func` (load_data.py:191-199): keep each stringified
value not in the sentinel set; a sentinel value is replaced by the configured
replacement when one is set and dropped otherwise. -/
def aggTextColumnsFunc (emptyRowValues : List String) (replaceText : Option String)
    (texts : List String) : List String :=
  texts.filterMap (fun t => if emptyRowValues.contains t then replaceText else some t)

/-- The join of the surviving values of one row
(load_data.py:162, the f-string join with a space-padded separator). -/
def joinTexts (sepTextTokenStr : String) (parts : List String) : String :=
  String.intercalate (" " ++ sepTextTokenStr ++ " ") parts

/-- The per-split output (`TorchTextDataset`, an external container specified
only at its interface: row-aligned components).  `texts` stands for the
row-aligned tokenizer input/output (the tokenizer collaborator is external
and batch-aligned per spec §6). -/
structure Bundle where
  df : DF
  texts : List String
  catFeats : Option (List (List Value))
  numFeats : Option (List (List (Option ℚ)))
  labels : List Value
  labelList : Option (List Value)
deriving DecidableEq

/-- `load_data` (load_data.py:128-171): optional debug truncation to the
first 50 rows, default sentinel set, column-spec resolution (which can raise),
categorical and numerical feature loading (the latter mutating the table),
normalization, per-row text aggregation and joining, the unconditional
`texts_list[0]` access (an `IndexError` on an empty split), label extraction,
and assembly of the bundle from the mutated table.  The numerical-transformer
state is threaded through and returned. -/
def loadData (df : DF) (textCols : ColSpec) (labelCol : String)
    (labelList : Option (List Value)) (catCols numCols : ColSpec)
    (sepTextTokenStr : String) (encodeType : Option String)
    (transformer : Option NumTransformer)
    (emptyTextValues : Option (List String)) (replaceEmptyText : Option String)
    (debug : Bool) : Except String (Bundle × Option NumTransformer) := do
  let df : DF := if debug then ⟨df.cols, df.data.take 50⟩ else df
  let etv := emptyTextValues.getD ["nan", "None"]
  let textF ← convertToFunc textCols
  let catF ← convertToFunc catCols
  let numF ← convertToFunc numCols
  let (catFeats, numFeats, df) := loadCatAndNumFeats df catF numF encodeType
  let (numFeats, transformer) := normalizeNumericalFeats numFeats transformer
  let textsCols := getMatchingCols df textF
  let textsList := df.data.map (fun p =>
    joinTexts sepTextTokenStr
      (aggTextColumnsFunc etv replaceEmptyText
        (textsCols.map (fun c => pyStr (rowGet df.cols p.2 c)))))
  if textsList.isEmpty then
    throw "IndexError: list index out of range"
  let labels := df.data.map (fun p => rowGet df.cols p.2 labelCol)
  pure (⟨df, textsList, catFeats, numFeats, labels, labelList⟩, transformer)

/-- The splits present, in order (`[df for df in [train_df, val_df, test_df]
if df is not None]`, load_data.py:39). -/
def presentDfs (trainDf : DF) (valDf : Option DF) (testDf : DF) : List DF :=
  match valDf with
  | some v => [trainDf, v, testDf]
  | Option.none => [trainDf, testDf]

/-- `pd.concat(dfs, axis=0)` over same-schema tables: the rows (with their
labels) are concatenated; the columns are those of the first table. -/
def concatRows : List DF → DF
  | [] => ⟨[], []⟩
  | d :: ds => ⟨d.cols, (d :: ds).flatMap DF.data⟩

/-- Insert into a sorted list of strings (ascending). -/
def insertSortedStr (x : String) : List String → List String
  | [] => [x]
  | y :: ys => if x ≤ y then x :: y :: ys else y :: insertSortedStr x ys

/-- Sort a list of strings ascending (insertion sort). -/
def sortStr (xs : List String) : List String := xs.foldr insertSortedStr []

/-- The distinct non-missing category values of one column, in sorted order,
as `pd.get_dummies` enumerates them. -/
def colCategories (df : DF) (c : String) : List String :=
  (sortStr (df.data.filterMap (fun p =>
    let v := rowGet df.cols p.2 c
    if v.isNA then Option.none else some (pyStr v)))).dedup

/-- One row under `pd.get_dummies(..., dummy_na=True)`: the cells of the
non-encoded columns in order, then for each encoded column one 0/1 indicator
per category plus the trailing `NaN` indicator. -/
def getDummiesRow (cols catCols : List String) (cats : String → List String)
    (r : List Value) : List Value :=
  ((cols.zip r).filter (fun q => !(catCols.contains q.1))).map Prod.snd
    ++ catCols.flatMap (fun c =>
        let v := rowGet cols r c
        (cats c).map (fun x => Value.num (some (if !v.isNA && pyStr v == x then 1 else 0)))
          ++ [Value.num (some (if v.isNA then 1 else 0))])

/-- `pd.get_dummies(data_df, columns=categorical_cols, dummy_na=True)`
(load_data.py:42-43): the encoded columns are dropped from their positions,
one indicator column per category (named `col_cat`) plus a `col_nan` column
is appended per encoded column, the index and row order are preserved. -/
def getDummies (df : DF) (catCols : List String) : DF :=
  ⟨df.cols.filter (fun c => !(catCols.contains c))
      ++ catCols.flatMap (fun c =>
          (colCategories df c).map (fun x => c ++ "_" ++ x) ++ [c ++ "_nan"]),
   df.data.map (fun p => (p.1, getDummiesRow df.cols catCols (colCategories df) p.2))⟩

/-- `df.loc[labels]`: for each requested label, every row of the table
carrying that label, in table order — so a duplicated label yields every row
that carries it. -/
def DF.loc (df : DF) (labels : List Int) : DF :=
  ⟨df.cols, labels.flatMap (fun l => df.data.filter (fun p => p.1 == l))⟩

/-- The recomputation of `categorical_cols` after the one-hot union fit
(load_data.py:44-45): every column of the encoded table that strictly extends
the name of some original categorical column, once per such original column. -/
def oheNewCatCols (encodedCols : List String) (categoricalCols : List String) :
    List String :=
  encodedCols.flatMap (fun col =>
    (categoricalCols.filter (fun oldCol =>
      col.startsWith oldCol && decide (oldCol.length < col.length))).map (fun _ => col))

/-- The one-hot union-fit step (load_data.py:38-45,53-58): concatenate the
present splits row-wise, materialize the one-hot encoding on the union,
recompute the categorical column list, and re-split the combined table by
each split's original index via `df.loc`. -/
def oheUnionStep (trainDf : DF) (valDf : Option DF) (testDf : DF)
    (categoricalCols : List String) :
    DF × Option DF × DF × List String :=
  let dataDf := concatRows (presentDfs trainDf valDf testDf)
  let dataDf := getDummies dataDf categoricalCols
  let newCatCols := oheNewCatCols dataDf.cols categoricalCols
  (dataDf.loc trainDf.index, valDf.map (fun v => dataDf.loc v.index),
   dataDf.loc testDf.index, newCatCols)

/-- The categorical encoding scheme string of the driver
(`categorical_encode_type`): `'ohe'`, `'binary'`, or neither (Python `None`
or `'none'`, both of which skip the union step and pass through per split). -/
inductive EncodeType where
  | ohe : EncodeType
  | binary : EncodeType
  | null : EncodeType
deriving DecidableEq

/-- The union categorical fit of the driver (load_data.py:38-58): for `ohe`,
the one-hot union step runs (`get_dummies` iterates `categorical_cols`, so a
missing column list is a `TypeError`) and the scheme is downgraded to `None`;
for `binary` the step calls `CategoricalFeatures` of `encode_features.py`,
which is not under `src/` and is outside the claims' verified flows, modelled
as an unreachable error path; otherwise nothing happens. -/
def unionCatStep (trainDf : DF) (valDf : Option DF) (testDf : DF)
    (categoricalCols : Option (List String)) (encodeType : EncodeType) :
    Except String (DF × Option DF × DF × Option (List String) × EncodeType) :=
  match encodeType with
  | .ohe =>
      match categoricalCols with
      | Option.none => .error "TypeError: argument of type NoneType is not iterable"
      | some cc =>
          let (t, v, s, newCat) := oheUnionStep trainDf valDf testDf cc
          .ok (t, v, s, some newCat, .null)
  | .binary => .error "CategoricalFeatures: encode_features.py is not under src"
  | .null => .ok (trainDf, valDf, testDf, categoricalCols, .null)

/-- The construction of the numerical transformer (load_data.py:60-69):
`'none'` yields no transformer; the three supported methods yield a fresh
unfitted transformer; any other method raises a `ValueError`. -/
def mkNumericalTransformer (method : String) : Except String (Option NumTransformer) :=
  if method == "none" then .ok Option.none
  else if method == "yeo_johnson" || method == "box_cox" || method == "quantile_normal" then
    .ok (some ⟨method, 0, Option.none⟩)
  else .error ("preprocessing transfomer method " ++ method ++ " not implemented")

/-- The spec to which the driver's `categorical_cols` value (an optional
name list) amounts when handed to `load_data`'s `convert_to_func`. -/
def catSpecOf : Option (List String) → ColSpec
  | some l => ColSpec.listSpec l
  | Option.none => ColSpec.noSpec

/-- The per-split encode-type value handed to `load_data` for each scheme
(`None` for the pass-through scheme). -/
def encodeTypeStrOf : EncodeType → Option String
  | .ohe => some "ohe"
  | .binary => some "binary"
  | .null => Option.none

/-- The per-split passes of `load_data_from_folder` (load_data.py:75-125), in
source order — train, test, then the optional val — threading the transformer
state and returning the three bundles (`None` for a missing validation
split). -/
def perSplitPasses (trainDf : DF) (valDf : Option DF) (testDf : DF)
    (textCols : ColSpec) (labelCol : String) (labelList : Option (List Value))
    (catColsSpec numericalCols : ColSpec) (sepTextTokenStr : String)
    (encodeTypeStr : Option String) (transformer : Option NumTransformer)
    (emptyTextValues : Option (List String)) (replaceEmptyText : Option String)
    (debug : Bool) :
    Except String (Bundle × Option Bundle × Bundle × Option NumTransformer) := do
  let (trainBundle, transformer) ←
    loadData trainDf textCols labelCol labelList catColsSpec numericalCols
      sepTextTokenStr encodeTypeStr transformer emptyTextValues replaceEmptyText debug
  let (testBundle, transformer) ←
    loadData testDf textCols labelCol labelList catColsSpec numericalCols
      sepTextTokenStr encodeTypeStr transformer emptyTextValues replaceEmptyText debug
  match valDf with
  | some v => do
      let (valBundle, transformer) ←
        loadData v textCols labelCol labelList catColsSpec numericalCols
          sepTextTokenStr encodeTypeStr transformer emptyTextValues replaceEmptyText debug
      pure (trainBundle, some valBundle, testBundle, transformer)
  | Option.none =>
      pure (trainBundle, Option.none, testBundle, transformer)

/-- The numerical-transformer section of the driver (load_data.py:60-73):
when a method other than `'none'` is requested, construct the transformer and
fit it once on the training split's numerical columns — note
`load_num_feats` mutates the training table before the fit, and sklearn's
`fit(None)` raises when no numerical column matches.  Returns the (possibly
absent) fitted transformer together with the (possibly mutated) training
table. -/
def fitNumTransformer (numericalTransformerMethod : String)
    (numericalCols : ColSpec) (trainDf : DF) :
    Except String (Option NumTransformer × DF) :=
  if numericalTransformerMethod != "none" then do
    let tr0 ← mkNumericalTransformer numericalTransformerMethod
    match tr0 with
    | Option.none => pure (Option.none, trainDf)
    | some tr =>
        let numF ← convertToFunc numericalCols
        let (numFeats, trainDf') := loadNumFeats trainDf numF
        match numFeats with
        | Option.none => throw "TypeError: fit() argument is None"
        | some m => pure (some (tr.fit m), trainDf')
  else
    pure (Option.none, trainDf)

/-- `load_data_from_folder` (load_data.py:16-125), past the external CSV
reads: the union categorical fit (when the scheme calls for it), the one-time
numerical-transformer fit on the training split's numerical columns, then the
per-split passes. -/
def loadDataFromFolder (trainDf : DF) (valDf : Option DF) (testDf : DF)
    (textCols : ColSpec) (labelCol : String) (labelList : Option (List Value))
    (categoricalCols : Option (List String)) (numericalCols : ColSpec)
    (sepTextTokenStr : String) (categoricalEncodeType : EncodeType)
    (numericalTransformerMethod : String)
    (emptyTextValues : Option (List String)) (replaceEmptyText : Option String)
    (debug : Bool) :
    Except String (Bundle × Option Bundle × Bundle × Option NumTransformer) := do
  let (trainDf, valDf, testDf, categoricalCols, perSplitEncodeType) ←
    unionCatStep trainDf valDf testDf categoricalCols categoricalEncodeType
  let (transformer, trainDf) ←
    fitNumTransformer numericalTransformerMethod numericalCols trainDf
  perSplitPasses trainDf valDf testDf textCols labelCol labelList
    (catSpecOf categoricalCols) numericalCols sepTextTokenStr
    (encodeTypeStrOf perSplitEncodeType) transformer emptyTextValues
    replaceEmptyText debug

/-- Whether an `Except` result is a success. -/
def exceptIsOk : Except String α → Bool
  | .ok _ => true
  | .error _ => false

/-- The row count of the statistics matrix held by the final transformer
state of a driver run (0 when the run failed or holds no fitted state). -/
def finalTransStatsLen
    (r : Except String (Bundle × Option Bundle × Bundle × Option NumTransformer)) : Nat :=
  match r with
  | .ok (_, _, _, some t) => (t.stats.getD []).length
  | _ => 0

/-- The row-wise union of the present splits, as the driver concatenates it
before the union categorical fit. -/
def unionOf (trainDf : DF) (valDf : Option DF) (testDf : DF) : DF :=
  concatRows (presentDfs trainDf valDf testDf)

/-- The transformation applied to each labelled row by the union one-hot
materialization: the label is kept, the cells are dummy-encoded against the
union's category vocabulary. -/
def oheEncodeRow (u : DF) (cc : List String) : Int × List Value → Int × List Value :=
  fun p => (p.1, getDummiesRow u.cols cc (colCategories u) p.2)

/-- Concrete split tables whose row labels overlap (both CSVs use label 0),
an input the driver accepts without complaint. -/
def c1TrainEx : DF := ⟨["c"], [(0, [Value.str "x"])]⟩

/-- See `c1TrainEx`: the test split carrying the same row label 0. -/
def c1TestEx : DF := ⟨["c"], [(0, [Value.str "y"])]⟩

/-- Train split for round-trip witnesses: one row with label 0. -/
def c1wTrain : DF := ⟨["c"], [(0, [Value.str "x"])]⟩

/-- Test split for round-trip witnesses: one row with the distinct label 1. -/
def c1wTest : DF := ⟨["c"], [(1, [Value.str "y"])]⟩

/-- The debug truncation of `load_data` (load_data.py:143-144):
`data_df[:50]` keeps the first 50 rows positionally. -/
def debugTrunc (debug : Bool) (df : DF) : DF :=
  if debug then ⟨df.cols, df.data.take 50⟩ else df

/-- The in-place median imputation `load_num_feats` performs on its caller's
table (load_data.py:220), as a table: numerical columns get their missing
values filled with the table's own column medians. -/
def imputedDF (df : DF) (f : DF → String → Bool) : DF :=
  ⟨df.cols, df.data.map (fun p =>
    (p.1, imputeRow df.cols (getMatchingCols df f) (colMedian df) p.2))⟩

/-- An empty split table (a CSV with headers and no rows). -/
def c9Df : DF := ⟨["t"], []⟩

/-- A 51-row training table: numerical column "x" and text column "t". -/
def c2Train51 : DF :=
  ⟨["x", "t"], (List.range 51).map (fun i =>
    ((i : Int), [Value.num (some (i : ℚ)), Value.str "a"]))⟩

/-- A one-row test table schema-compatible with `c2Train51`. -/
def c2Test1 : DF := ⟨["x", "t"], [(100, [Value.num (some 5), Value.str "b"])]⟩

/-- A one-row training table for transformer-lifecycle witnesses. -/
def c3Train : DF := ⟨["x", "t"], [(0, [Value.num (some 2), Value.str "a"])]⟩

/-- A one-row test table for transformer-lifecycle witnesses. -/
def c3Test : DF := ⟨["x", "t"], [(1, [Value.num (some 3), Value.str "b"])]⟩

/-- A one-row training split (label 0) with a numerical, a text, and a
categorical column, for the transformer-fit counterexample. -/
def c3cexTrain : DF :=
  ⟨["x", "t", "c"], [(0, [Value.num (some 2), Value.str "a", Value.str "u"])]⟩

/-- A one-row test split carrying the same row label 0 as `c3cexTrain`. -/
def c3cexTest : DF :=
  ⟨["x", "t", "c"], [(0, [Value.num (some 3), Value.str "b", Value.str "v"])]⟩

/-- The final numerical-transformer state of a driver run (`None` when the
run failed or no transformer was requested). -/
def finalTransformer
    (r : Except String (Bundle × Option Bundle × Bundle × Option NumTransformer)) :
    Option NumTransformer :=
  match r with
  | .ok (_, _, _, t) => t
  | .error _ => Option.none

/-- The bundle the driver produces for `c3Train` with numerical column "x"
and text/label column "t". -/
def c3wTrainBundle : Bundle :=
  ⟨c3Train, ["a"], Option.none, some [[some 2]], [Value.str "a"], Option.none⟩

/-- The bundle the driver produces for `c3Test` with numerical column "x"
and text/label column "t". -/
def c3wTestBundle : Bundle :=
  ⟨c3Test, ["b"], Option.none, some [[some 3]], [Value.str "b"], Option.none⟩

/-- A one-row validation split for the one-hot consistency witness. -/
def c4wVal : DF := ⟨["c"], [(2, [Value.str "z"])]⟩

/-- The validation part of the one-hot union re-split on the witness input. -/
def c4wValSplit : DF :=
  (getDummies (unionOf c1wTrain (some c4wVal) c1wTest) ["c"]).loc c4wVal.index

/-- A two-row table whose numerical column "x" has one missing value. -/
def c5wDf : DF := ⟨["x"], [(0, [Value.num Option.none]), (1, [Value.num (some 4)])]⟩

/-- The numerical-column predicate selecting exactly "x". -/
def c5wF : DF → String → Bool := fun _ x => ["x"].contains x

/-- A one-row table with a missing numerical cell and a text cell. -/
def c10wDf : DF := ⟨["x", "t"], [(0, [Value.num Option.none, Value.str "hi"])]⟩

/-- The bundle `load_data` produces on `c10wDf` with numerical column "x" and
text/label column "t". -/
def c10wBundle : Bundle :=
  ⟨c10wDf, ["hi"], Option.none, some [[Option.none]], [Value.str "hi"], Option.none⟩

/- ------------------------------------------------------------------ -/
/- Helper lemmas -/
/- ------------------------------------------------------------------ -/

lemma filter_label_of_nodup (data : List (Int × List Value)) (x : Int × List Value)
    (h : (data.map Prod.fst).Nodup) (hx : x ∈ data) :
    data.filter (fun p => p.1 == x.1) = [x] := by
  induction data with
  | nil => cases hx
  | cons a as ih =>
    rw [List.map_cons, List.nodup_cons] at h
    rcases List.mem_cons.mp hx with rfl | hx'
    · have hrest : as.filter (fun p => p.1 == x.1) = [] := by
        refine List.filter_eq_nil_iff.mpr ?_
        intro p hp hpx
        exact h.1 (by
          have : p.1 = x.1 := by simpa using hpx
          rw [← this]
          exact List.mem_map_of_mem Prod.fst hp)
      simp [List.filter_cons, hrest]
    · have hne : (a.1 == x.1) = false := by
        apply beq_eq_false_iff_ne.mpr
        intro hcontra
        exact h.1 (hcontra ▸ List.mem_map_of_mem Prod.fst hx')
      simp only [List.filter_cons, hne, Bool.false_eq_true, if_false]
      exact ih h.2 hx'

lemma flatMap_filter_of_nodup (data : List (Int × List Value))
    (sub : List (Int × List Value)) (h : (data.map Prod.fst).Nodup)
    (hsub : ∀ x ∈ sub, x ∈ data) :
    (sub.map Prod.fst).flatMap (fun l => data.filter (fun p => p.1 == l)) = sub := by
  induction sub with
  | nil => rfl
  | cons s rest ih =>
    rw [List.map_cons, List.flatMap_cons,
      filter_label_of_nodup data s h (hsub s (List.mem_cons_self s rest)),
      ih (fun x hx => hsub x (List.mem_cons_of_mem s hx))]
    rfl

lemma loc_of_nodup (df : DF) (sub : List (Int × List Value))
    (h : df.index.Nodup) (hsub : ∀ x ∈ sub, x ∈ df.data) :
    (df.loc (sub.map Prod.fst)).data = sub :=
  flatMap_filter_of_nodup df.data sub h hsub

lemma getDummies_data (u : DF) (cc : List String) :
    (getDummies u cc).data = u.data.map (oheEncodeRow u cc) := rfl

lemma index_map_encode (l : List (Int × List Value)) (u : DF) (cc : List String) :
    (l.map (oheEncodeRow u cc)).map Prod.fst = l.map Prod.fst := by
  rw [List.map_map]
  rfl

lemma unionOf_data_some (trainDf v testDf : DF) :
    (unionOf trainDf (some v) testDf).data
      = trainDf.data ++ v.data ++ testDf.data := by
  simp [unionOf, presentDfs, concatRows]

lemma unionOf_data_none (trainDf testDf : DF) :
    (unionOf trainDf Option.none testDf).data = trainDf.data ++ testDf.data := by
  simp [unionOf, presentDfs, concatRows]

lemma mem_union_train (trainDf : DF) (valDf : Option DF) (testDf : DF)
    (x : Int × List Value) (hx : x ∈ trainDf.data) :
    x ∈ (unionOf trainDf valDf testDf).data := by
  cases valDf with
  | none => rw [unionOf_data_none]; exact List.mem_append_left _ hx
  | some v => rw [unionOf_data_some]; exact List.mem_append_left _ (List.mem_append_left _ hx)

lemma mem_union_test (trainDf : DF) (valDf : Option DF) (testDf : DF)
    (x : Int × List Value) (hx : x ∈ testDf.data) :
    x ∈ (unionOf trainDf valDf testDf).data := by
  cases valDf with
  | none => rw [unionOf_data_none]; exact List.mem_append_right _ hx
  | some v => rw [unionOf_data_some]; exact List.mem_append_right _ hx

lemma mem_union_val (trainDf v testDf : DF)
    (x : Int × List Value) (hx : x ∈ v.data) :
    x ∈ (unionOf trainDf (some v) testDf).data := by
  rw [unionOf_data_some]
  exact List.mem_append_left _ (List.mem_append_right _ hx)

lemma getDummies_union_index_nodup (trainDf : DF) (valDf : Option DF) (testDf : DF)
    (cc : List String) (h : (unionOf trainDf valDf testDf).index.Nodup) :
    (getDummies (unionOf trainDf valDf testDf) cc).index.Nodup := by
  have : (getDummies (unionOf trainDf valDf testDf) cc).index
      = (unionOf trainDf valDf testDf).index := by
    show ((unionOf trainDf valDf testDf).data.map
        (oheEncodeRow (unionOf trainDf valDf testDf) cc)).map Prod.fst
      = (unionOf trainDf valDf testDf).data.map Prod.fst
    rw [index_map_encode]
  rw [this]
  exact h

lemma loc_encoded_segment (trainDf : DF) (valDf : Option DF) (testDf : DF)
    (cc : List String) (seg : DF) (h : (unionOf trainDf valDf testDf).index.Nodup)
    (hseg : ∀ x ∈ seg.data, x ∈ (unionOf trainDf valDf testDf).data) :
    ((getDummies (unionOf trainDf valDf testDf) cc).loc seg.index).data
      = seg.data.map (oheEncodeRow (unionOf trainDf valDf testDf) cc) := by
  have hidx : seg.index
      = (seg.data.map (oheEncodeRow (unionOf trainDf valDf testDf) cc)).map Prod.fst := by
    rw [index_map_encode]
    rfl
  rw [hidx]
  refine loc_of_nodup _ _ (getDummies_union_index_nodup trainDf valDf testDf cc h) ?_
  intro x hx
  rcases List.mem_map.mp hx with ⟨y, hy, rfl⟩
  rw [getDummies_data]
  exact List.mem_map_of_mem _ (hseg y hy)

lemma loadNumFeats_snd (df : DF) (f : DF → String → Bool) :
    (loadNumFeats df f).2 = imputedDF df f := by
  simp only [loadNumFeats, imputedDF]
  split <;> rfl

lemma normalizeNumericalFeats_snd (nf : Option (List (List (Option ℚ))))
    (t : Option NumTransformer) : (normalizeNumericalFeats nf t).2 = t := by
  cases nf <;> cases t <;> rfl

lemma loadData_eq (df : DF) (textCols catCols numCols : ColSpec)
    (labelCol : String) (labelList : Option (List Value)) (sep : String)
    (et : Option String) (tr : Option NumTransformer)
    (etv : Option (List String)) (ret : Option String) (debug : Bool)
    (textF catF numF : DF → String → Bool)
    (h1 : convertToFunc textCols = .ok textF)
    (h2 : convertToFunc catCols = .ok catF)
    (h3 : convertToFunc numCols = .ok numF) :
    loadData df textCols labelCol labelList catCols numCols sep et tr etv ret debug
      = (let df0 := debugTrunc debug df
         let df1 := (loadNumFeats df0 numF).2
         let textsList := df1.data.map (fun p =>
            joinTexts sep (aggTextColumnsFunc (etv.getD ["nan", "None"]) ret
              ((getMatchingCols df1 textF).map (fun c => pyStr (rowGet df1.cols p.2 c)))))
         if textsList.isEmpty then Except.error "IndexError: list index out of range"
         else Except.ok (⟨df1, textsList, loadCatFeats df0 catF et,
             (normalizeNumericalFeats (loadNumFeats df0 numF).1 tr).1,
             df1.data.map (fun p => rowGet df1.cols p.2 labelCol), labelList⟩,
           (normalizeNumericalFeats (loadNumFeats df0 numF).1 tr).2)) := by
  simp only [loadData, h1, h2, h3, debugTrunc]
  rfl

lemma loadData_error_of_empty (df : DF) (textCols catCols numCols : ColSpec)
    (labelCol : String) (labelList : Option (List Value)) (sep : String)
    (et : Option String) (tr : Option NumTransformer)
    (etv : Option (List String)) (ret : Option String) (debug : Bool)
    (textF catF numF : DF → String → Bool)
    (h1 : convertToFunc textCols = .ok textF)
    (h2 : convertToFunc catCols = .ok catF)
    (h3 : convertToFunc numCols = .ok numF)
    (hempty : df.data = []) :
    loadData df textCols labelCol labelList catCols numCols sep et tr etv ret debug
      = Except.error "IndexError: list index out of range" := by
  rw [loadData_eq df textCols catCols numCols labelCol labelList sep et tr etv ret
    debug textF catF numF h1 h2 h3]
  have h0 : (debugTrunc debug df).data = [] := by
    cases debug <;> simp [debugTrunc, hempty]
  have h1' : ((loadNumFeats (debugTrunc debug df) numF).2).data = [] := by
    rw [loadNumFeats_snd]
    simp [imputedDF, h0]
  simp only [h1', List.map_nil, List.isEmpty_nil, if_true]

lemma loadData_not_ok_of_bad_spec (df : DF) (textCols catCols numCols : ColSpec)
    (labelCol : String) (labelList : Option (List Value)) (sep : String)
    (et : Option String) (tr : Option NumTransformer)
    (etv : Option (List String)) (ret : Option String) (debug : Bool)
    (h : (∃ e, convertToFunc textCols = .error e)
        ∨ (∃ e, convertToFunc catCols = .error e)
        ∨ (∃ e, convertToFunc numCols = .error e)) :
    exceptIsOk (loadData df textCols labelCol labelList catCols numCols sep et tr
      etv ret debug) = false := by
  cases h1 : convertToFunc textCols with
  | error e1 =>
      have : loadData df textCols labelCol labelList catCols numCols sep et tr
          etv ret debug = Except.error e1 := by
        simp only [loadData, h1]
        rfl
      rw [this]
      rfl
  | ok textF =>
      cases h2 : convertToFunc catCols with
      | error e2 =>
          have : loadData df textCols labelCol labelList catCols numCols sep et tr
              etv ret debug = Except.error e2 := by
            simp only [loadData, h1, h2]
            rfl
          rw [this]
          rfl
      | ok catF =>
          cases h3 : convertToFunc numCols with
          | error e3 =>
              have : loadData df textCols labelCol labelList catCols numCols sep et
                  tr etv ret debug = Except.error e3 := by
                simp only [loadData, h1, h2, h3]
                rfl
              rw [this]
              rfl
          | ok numF =>
              rcases h with ⟨e, he⟩ | ⟨e, he⟩ | ⟨e, he⟩
              · rw [h1] at he
                cases he
              · rw [h2] at he
                cases he
              · rw [h3] at he
                cases he

lemma rowGet_imputeRow_mem (cols numCols : List String) (meds : String → Option ℚ)
    (r : List Value) (c : String) (hc : c ∈ cols) (hnc : numCols.contains c = true)
    (hlen : r.length = cols.length) :
    rowGet cols (imputeRow cols numCols meds r) c
      = imputeVal (meds c) (rowGet cols r c) := by
  have hk : List.indexOf c cols < cols.length := List.indexOf_lt_length.mpr hc
  have hkr : List.indexOf c cols < r.length := by rw [hlen]; exact hk
  have hzip : (cols.zip r).get? (List.indexOf c cols)
      = some (c, r.get ⟨List.indexOf c cols, hkr⟩) := by
    refine (List.get?_zip_eq_some cols r _ _).mpr ⟨?_, ?_⟩
    · exact List.indexOf_get? hc
    · exact List.get?_eq_get hkr
  show ((((cols.zip r).map (fun q =>
      if numCols.contains q.1 then imputeVal (meds q.1) q.2 else q.2)).get?
        (List.indexOf c cols)).getD (Value.num Option.none)) = _
  rw [List.get?_map, hzip]
  simp only [Option.map_some', Option.getD_some, hnc, if_true]
  have : rowGet cols r c = r.get ⟨List.indexOf c cols, hkr⟩ := by
    show (r.get? (List.indexOf c cols)).getD (Value.num Option.none) = _
    rw [List.get?_eq_get hkr]
    rfl
  rw [this]

lemma rowGet_imputeRow_not_mem (cols numCols : List String) (meds : String → Option ℚ)
    (r : List Value) (c : String) (hc : c ∈ cols)
    (hnc : numCols.contains c = false) :
    rowGet cols (imputeRow cols numCols meds r) c = rowGet cols r c := by
  have hk : List.indexOf c cols < cols.length := List.indexOf_lt_length.mpr hc
  show ((((cols.zip r).map (fun q =>
      if numCols.contains q.1 then imputeVal (meds q.1) q.2 else q.2)).get?
        (List.indexOf c cols)).getD (Value.num Option.none))
    = ((r.get? (List.indexOf c cols)).getD (Value.num Option.none))
  by_cases hkr : List.indexOf c cols < r.length
  · have hzip : (cols.zip r).get? (List.indexOf c cols)
        = some (c, r.get ⟨List.indexOf c cols, hkr⟩) := by
      refine (List.get?_zip_eq_some cols r _ _).mpr ⟨?_, ?_⟩
      · exact List.indexOf_get? hc
      · exact List.get?_eq_get hkr
    rw [List.get?_map, hzip, List.get?_eq_get hkr]
    simp only [Option.map_some', Option.getD_some, hnc, Bool.false_eq_true, if_false]
  · push_neg at hkr
    have h1 : ((cols.zip r).map (fun q =>
        if numCols.contains q.1 then imputeVal (meds q.1) q.2 else q.2)).get?
          (List.indexOf c cols) = Option.none := by
      refine List.get?_eq_none.mpr ?_
      rw [List.length_map, List.length_zip]
      exact le_trans (min_le_right _ _) hkr
    have h2 : r.get? (List.indexOf c cols) = Option.none :=
      List.get?_eq_none.mpr hkr
    rw [h1, h2]

lemma loadNumFeats_fst_some (df : DF) (f : DF → String → Bool)
    (m : List (List (Option ℚ))) (hm : (loadNumFeats df f).1 = some m) :
    m = (imputedDF df f).data.map (fun p =>
      (getMatchingCols df f).map (fun c => (rowGet df.cols p.2 c).toNum)) := by
  simp only [loadNumFeats] at hm
  split at hm
  · cases hm
  · exact (Option.some.injEq _ _ ▸ hm).symm

lemma loadData_ok_parts (df : DF) (textCols catCols numCols : ColSpec)
    (labelCol : String) (labelList : Option (List Value)) (sep : String)
    (et : Option String) (tr : Option NumTransformer) (etv : Option (List String))
    (ret : Option String) (debug : Bool) (b : Bundle) (tOut : Option NumTransformer)
    (h : loadData df textCols labelCol labelList catCols numCols sep et tr etv ret
      debug = .ok (b, tOut)) :
    tOut = tr
    ∧ b.df.data.length = (debugTrunc debug df).data.length
    ∧ b.texts.length = b.df.data.length
    ∧ b.labels.length = b.df.data.length := by
  cases h1 : convertToFunc textCols with
  | error e =>
      have := loadData_not_ok_of_bad_spec df textCols catCols numCols labelCol
        labelList sep et tr etv ret debug (Or.inl ⟨e, h1⟩)
      rw [h] at this
      cases this
  | ok textF =>
  cases h2 : convertToFunc catCols with
  | error e =>
      have := loadData_not_ok_of_bad_spec df textCols catCols numCols labelCol
        labelList sep et tr etv ret debug (Or.inr (Or.inl ⟨e, h2⟩))
      rw [h] at this
      cases this
  | ok catF =>
  cases h3 : convertToFunc numCols with
  | error e =>
      have := loadData_not_ok_of_bad_spec df textCols catCols numCols labelCol
        labelList sep et tr etv ret debug (Or.inr (Or.inr ⟨e, h3⟩))
      rw [h] at this
      cases this
  | ok numF =>
      rw [loadData_eq df textCols catCols numCols labelCol labelList sep et tr etv
        ret debug textF catF numF h1 h2 h3] at h
      dsimp only at h
      split at h
      · cases h
      · have hpair := (Prod.mk.injEq _ _ _ _).mp (Except.ok.inj h)
        have hb : b = _ := hpair.1.symm
        have ht : tOut = _ := hpair.2.symm
        subst hb
        subst ht
        refine ⟨normalizeNumericalFeats_snd _ _, ?_, ?_, ?_⟩
        · show ((loadNumFeats (debugTrunc debug df) numF).2).data.length = _
          rw [loadNumFeats_snd]
          simp [imputedDF]
        · simp
        · simp

lemma debugTrunc_true_length (df : DF) :
    (debugTrunc true df).data.length = min 50 df.data.length := by
  simp [debugTrunc]

lemma loadNumFeats_snd_length (df : DF) (f : DF → String → Bool) :
    ((loadNumFeats df f).2).data.length = df.data.length := by
  rw [loadNumFeats_snd]
  simp [imputedDF]

lemma perSplitPasses_ok_inv (trainDf1 : DF) (valDf : Option DF) (testDf : DF)
    (textCols : ColSpec) (labelCol : String) (labelList : Option (List Value))
    (catColsSpec numericalCols : ColSpec) (sep : String) (ets : Option String)
    (tr : Option NumTransformer) (etv : Option (List String)) (ret : Option String)
    (debug : Bool) (tb : Bundle) (vb : Option Bundle) (sb : Bundle)
    (tfin : Option NumTransformer)
    (h : perSplitPasses trainDf1 valDf testDf textCols labelCol labelList
      catColsSpec numericalCols sep ets tr etv ret debug = .ok (tb, vb, sb, tfin)) :
    ∃ pr1 pr2 : Bundle × Option NumTransformer,
      loadData trainDf1 textCols labelCol labelList catColsSpec numericalCols sep
        ets tr etv ret debug = .ok pr1
      ∧ loadData testDf textCols labelCol labelList catColsSpec numericalCols sep
        ets pr1.2 etv ret debug = .ok pr2
      ∧ tb = pr1.1 ∧ sb = pr2.1
      ∧ ((valDf = Option.none ∧ vb = Option.none ∧ tfin = pr2.2)
        ∨ (∃ v pr3, valDf = some v
            ∧ loadData v textCols labelCol labelList catColsSpec numericalCols sep
              ets pr2.2 etv ret debug = .ok pr3
            ∧ vb = some pr3.1 ∧ tfin = pr3.2)) := by
  dsimp only [perSplitPasses, Bind.bind, Except.bind, Pure.pure, Except.pure] at h
  split at h
  case h_1 err heq1 => exact Except.noConfusion h
  case h_2 pr1 heq1 =>
    split at h
    case h_1 err heq2 => exact Except.noConfusion h
    case h_2 pr2 heq2 =>
      cases valDf with
      | none =>
          dsimp only at h
          have hinj := (Prod.mk.injEq _ _ _ _).mp (Except.ok.inj h)
          have h4 := (Prod.mk.injEq _ _ _ _).mp hinj.2
          have h5 := (Prod.mk.injEq _ _ _ _).mp h4.2
          exact ⟨pr1, pr2, heq1, heq2, hinj.1.symm, h5.1.symm,
            Or.inl ⟨rfl, h4.1.symm, h5.2.symm⟩⟩
      | some v0 =>
          dsimp only at h
          split at h
          case h_1 err heq3 => exact Except.noConfusion h
          case h_2 pr3 heq3 =>
            have hinj := (Prod.mk.injEq _ _ _ _).mp (Except.ok.inj h)
            have h4 := (Prod.mk.injEq _ _ _ _).mp hinj.2
            have h5 := (Prod.mk.injEq _ _ _ _).mp h4.2
            exact ⟨pr1, pr2, heq1, heq2, hinj.1.symm, h5.1.symm,
              Or.inr ⟨v0, pr3, rfl, heq3, h4.1.symm, h5.2.symm⟩⟩

lemma mkNumericalTransformer_ok (method : String) (v : Option NumTransformer)
    (hne : method ≠ "none") (h : mkNumericalTransformer method = .ok v) :
    v = some ⟨method, 0, Option.none⟩ := by
  simp only [mkNumericalTransformer] at h
  split at h
  · next hc => exact absurd (beq_iff_eq.mp hc) hne
  · split at h
    · exact (Except.ok.inj h).symm
    · exact Except.noConfusion h

lemma fitNumTransformer_ok_inv (method : String) (numericalCols : ColSpec)
    (trainDf : DF) (pr : Option NumTransformer × DF)
    (h : fitNumTransformer method numericalCols trainDf = .ok pr) :
    ((method != "none") = false ∧ pr = (Option.none, trainDf))
    ∨ (∃ numF m, (method != "none") = true
        ∧ convertToFunc numericalCols = .ok numF
        ∧ (loadNumFeats trainDf numF).1 = some m
        ∧ pr = (some ⟨method, 1, some m⟩, (loadNumFeats trainDf numF).2)) := by
  dsimp only [fitNumTransformer, Bind.bind, Except.bind, Pure.pure,
    Except.pure] at h
  split at h
  case isTrue hcond =>
    right
    split at h
    case h_1 err heq => exact Except.noConfusion h
    case h_2 v heq =>
      have hne : method ≠ "none" := by
        intro heq2
        rw [heq2] at hcond
        exact absurd hcond (by decide)
      have hv := mkNumericalTransformer_ok method v hne heq
      subst hv
      dsimp only at h
      split at h
      case h_1 err heqF => exact Except.noConfusion h
      case h_2 numF heqF =>
        split at h
        case h_1 heqm => exact Except.noConfusion h
        case h_2 m heqm =>
          exact ⟨numF, m, hcond, heqF, heqm, (Except.ok.inj h).symm⟩
  case isFalse hcond =>
    left
    exact ⟨Bool.eq_false_iff.mpr hcond, (Except.ok.inj h).symm⟩

lemma folder_null_inv (trainDf : DF) (valDf : Option DF) (testDf : DF)
    (textCols : ColSpec) (labelCol : String) (labelList : Option (List Value))
    (categoricalCols : Option (List String)) (numericalCols : ColSpec)
    (sep : String) (method : String) (etv : Option (List String))
    (ret : Option String) (debug : Bool)
    (out : Bundle × Option Bundle × Bundle × Option NumTransformer)
    (h : loadDataFromFolder trainDf valDf testDf textCols labelCol labelList
      categoricalCols numericalCols sep EncodeType.null method etv ret
      debug = .ok out) :
    ∃ pr : Option NumTransformer × DF,
      fitNumTransformer method numericalCols trainDf = .ok pr
      ∧ perSplitPasses pr.2 valDf testDf textCols labelCol labelList
          (catSpecOf categoricalCols) numericalCols sep Option.none pr.1
          etv ret debug = .ok out := by
  dsimp only [loadDataFromFolder, unionCatStep, encodeTypeStrOf, Bind.bind,
    Except.bind, Pure.pure, Except.pure] at h
  split at h
  case h_1 err heq => exact Except.noConfusion h
  case h_2 pr heq => exact ⟨pr, heq, h⟩

lemma folder_ohe_inv (trainDf : DF) (valDf : Option DF) (testDf : DF)
    (textCols : ColSpec) (labelCol : String) (labelList : Option (List Value))
    (cc : List String) (numericalCols : ColSpec)
    (sep : String) (method : String) (etv : Option (List String))
    (ret : Option String) (debug : Bool)
    (out : Bundle × Option Bundle × Bundle × Option NumTransformer)
    (h : loadDataFromFolder trainDf valDf testDf textCols labelCol labelList
      (some cc) numericalCols sep EncodeType.ohe method etv ret
      debug = .ok out) :
    ∃ pr : Option NumTransformer × DF,
      fitNumTransformer method numericalCols
        (oheUnionStep trainDf valDf testDf cc).1 = .ok pr
      ∧ perSplitPasses pr.2 ((oheUnionStep trainDf valDf testDf cc).2.1)
          ((oheUnionStep trainDf valDf testDf cc).2.2.1) textCols labelCol
          labelList
          (catSpecOf (some (oheUnionStep trainDf valDf testDf cc).2.2.2))
          numericalCols sep Option.none pr.1 etv ret debug = .ok out := by
  dsimp only [loadDataFromFolder, unionCatStep, encodeTypeStrOf, Bind.bind,
    Except.bind, Pure.pure, Except.pure] at h
  split at h
  case h_1 err heq => exact Except.noConfusion h
  case h_2 pr heq => exact ⟨pr, heq, h⟩

lemma folder_union_ok_inv (trainDf : DF) (valDf : Option DF) (testDf : DF)
    (textCols : ColSpec) (labelCol : String) (labelList : Option (List Value))
    (categoricalCols : Option (List String)) (numericalCols : ColSpec)
    (sep : String) (scheme : EncodeType) (method : String)
    (etv : Option (List String)) (ret : Option String) (debug : Bool)
    (t' : DF) (v' : Option DF) (s' : DF) (cc' : Option (List String))
    (et' : EncodeType)
    (hu : unionCatStep trainDf valDf testDf categoricalCols scheme
      = .ok (t', v', s', cc', et'))
    (out : Bundle × Option Bundle × Bundle × Option NumTransformer)
    (h : loadDataFromFolder trainDf valDf testDf textCols labelCol labelList
      categoricalCols numericalCols sep scheme method etv ret debug = .ok out) :
    ∃ pr : Option NumTransformer × DF,
      fitNumTransformer method numericalCols t' = .ok pr
      ∧ perSplitPasses pr.2 v' s' textCols labelCol labelList (catSpecOf cc')
          numericalCols sep (encodeTypeStrOf et') pr.1 etv ret debug = .ok out := by
  dsimp only [loadDataFromFolder, Bind.bind, Except.bind] at h
  rw [hu] at h
  dsimp only at h
  split at h
  case h_1 err heq => exact Except.noConfusion h
  case h_2 pr heq => exact ⟨pr, heq, h⟩

lemma folder_binary_not_ok (trainDf : DF) (valDf : Option DF) (testDf : DF)
    (textCols : ColSpec) (labelCol : String) (labelList : Option (List Value))
    (categoricalCols : Option (List String)) (numericalCols : ColSpec)
    (sep : String) (method : String) (etv : Option (List String))
    (ret : Option String) (debug : Bool)
    (out : Bundle × Option Bundle × Bundle × Option NumTransformer)
    (h : loadDataFromFolder trainDf valDf testDf textCols labelCol labelList
      categoricalCols numericalCols sep EncodeType.binary method etv ret
      debug = .ok out) : False := by
  dsimp only [loadDataFromFolder, unionCatStep, Bind.bind, Except.bind] at h
  exact Except.noConfusion h

lemma folder_ohe_no_cats_not_ok (trainDf : DF) (valDf : Option DF) (testDf : DF)
    (textCols : ColSpec) (labelCol : String) (labelList : Option (List Value))
    (numericalCols : ColSpec)
    (sep : String) (method : String) (etv : Option (List String))
    (ret : Option String) (debug : Bool)
    (out : Bundle × Option Bundle × Bundle × Option NumTransformer)
    (h : loadDataFromFolder trainDf valDf testDf textCols labelCol labelList
      Option.none numericalCols sep EncodeType.ohe method etv ret
      debug = .ok out) : False := by
  dsimp only [loadDataFromFolder, unionCatStep, Bind.bind, Except.bind] at h
  exact Except.noConfusion h

/- ------------------------------------------------------------------ -/
/- Claim theorems -/
/- ------------------------------------------------------------------ -/

/-- C1 counterexample: the round-trip of the union fit fails on an input the
pipeline accepts.  With the one-hot scheme and two single-row splits that
share the row label 0 (each CSV using its own 0-based index), `df.loc`
returns every row carrying a requested label, so the re-split train table
holds both rows — its row identity list is `[0, 0]`, not the original `[0]`:
the original per-split row set is not recovered. -/
theorem c1_roundtrip_counterexample :
    (oheUnionStep c1TrainEx Option.none c1TestEx ["c"]).1.index ≠ c1TrainEx.index := by
  decide

/-- C1 (amended): when the row labels are globally unique across the union of
the present splits, the one-hot union fit round-trips — re-splitting the
materialized combined table by each split's original row index recovers
exactly the original per-split rows (each in its union-encoded form), with
the original labels in the original order, for train, val, and test. -/
theorem c1_union_roundtrip (trainDf testDf : DF) (valDf : Option DF)
    (cc : List String) (hcc : ∀ c ∈ cc, c ∈ (unionOf trainDf valDf testDf).cols)
    (h : (unionOf trainDf valDf testDf).index.Nodup) :
    (oheUnionStep trainDf valDf testDf cc).1.data
        = trainDf.data.map (oheEncodeRow (unionOf trainDf valDf testDf) cc)
    ∧ (oheUnionStep trainDf valDf testDf cc).2.2.1.data
        = testDf.data.map (oheEncodeRow (unionOf trainDf valDf testDf) cc)
    ∧ (oheUnionStep trainDf valDf testDf cc).2.1
        = valDf.map (fun v =>
            ⟨(getDummies (unionOf trainDf valDf testDf) cc).cols,
             v.data.map (oheEncodeRow (unionOf trainDf valDf testDf) cc)⟩)
    ∧ (oheUnionStep trainDf valDf testDf cc).1.index = trainDf.index
    ∧ (oheUnionStep trainDf valDf testDf cc).2.2.1.index = testDf.index
    ∧ ((oheUnionStep trainDf valDf testDf cc).2.1).map DF.index
        = valDf.map DF.index := by
  have htrain :
      (oheUnionStep trainDf valDf testDf cc).1.data
        = trainDf.data.map (oheEncodeRow (unionOf trainDf valDf testDf) cc) :=
    loc_encoded_segment trainDf valDf testDf cc trainDf h
      (fun x hx => mem_union_train trainDf valDf testDf x hx)
  have htest :
      (oheUnionStep trainDf valDf testDf cc).2.2.1.data
        = testDf.data.map (oheEncodeRow (unionOf trainDf valDf testDf) cc) :=
    loc_encoded_segment trainDf valDf testDf cc testDf h
      (fun x hx => mem_union_test trainDf valDf testDf x hx)
  have hval :
      (oheUnionStep trainDf valDf testDf cc).2.1
        = valDf.map (fun v =>
            ⟨(getDummies (unionOf trainDf valDf testDf) cc).cols,
             v.data.map (oheEncodeRow (unionOf trainDf valDf testDf) cc)⟩) := by
    cases valDf with
    | none => rfl
    | some v =>
        show some ((getDummies (unionOf trainDf (some v) testDf) cc).loc v.index)
          = some ⟨(getDummies (unionOf trainDf (some v) testDf) cc).cols,
              v.data.map (oheEncodeRow (unionOf trainDf (some v) testDf) cc)⟩
        congr 1
        have hdata := loc_encoded_segment trainDf (some v) testDf cc v h
          (fun x hx => mem_union_val trainDf v testDf x hx)
        cases hloc : (getDummies (unionOf trainDf (some v) testDf) cc).loc v.index
        rw [hloc] at hdata
        simp only [DF.loc, DF.mk.injEq] at hloc ⊢
        exact ⟨hloc.1.symm, hdata⟩
  refine ⟨htrain, htest, hval, ?_, ?_, ?_⟩
  · show (oheUnionStep trainDf valDf testDf cc).1.data.map Prod.fst = trainDf.index
    rw [htrain, index_map_encode]
    rfl
  · show (oheUnionStep trainDf valDf testDf cc).2.2.1.data.map Prod.fst = testDf.index
    rw [htest, index_map_encode]
    rfl
  · rw [hval]
    cases valDf with
    | none => rfl
    | some v =>
        show some ((v.data.map (oheEncodeRow (unionOf trainDf (some v) testDf) cc)).map Prod.fst)
          = some v.index
        rw [index_map_encode]
        rfl

/-- C1 witness: the amended round-trip theorem applied to concrete one-row
train and test splits with the distinct labels 0 and 1. -/
theorem c1_union_roundtrip_witness :
    (unionOf c1wTrain Option.none c1wTest).index.Nodup
    ∧ (oheUnionStep c1wTrain Option.none c1wTest ["c"]).1.index = c1wTrain.index :=
  ⟨by decide, (c1_union_roundtrip c1wTrain c1wTest Option.none ["c"] (by decide)
    (by decide)).2.2.2.1⟩

/-- C6: aggregating the row values ["nan", "hello", "None"] with sentinel set
{"nan", "None"} and separator "|" yields "hello" when no replacement is
configured, and "MISSING | hello | MISSING" when the replacement is
"MISSING" — sentinels are dropped or substituted before joining the
survivors with the space-padded separator. -/
theorem c6_text_aggregation :
    joinTexts "|" (aggTextColumnsFunc ["nan", "None"] Option.none
        ["nan", "hello", "None"]) = "hello"
    ∧ joinTexts "|" (aggTextColumnsFunc ["nan", "None"] (some "MISSING")
        ["nan", "hello", "None"]) = "MISSING | hello | MISSING" := by
  constructor <;> rfl

/-- C7: column-predicate resolution — a `None` spec resolves to a predicate
matching no column, a callable is used as-is, any spec that is neither
`None`, a callable, nor a set/list fails the assertion, and `load_data`
called with such a spec raises that configuration error before touching any
feature data. -/
theorem c7_colspec_resolution :
    (convertToFunc ColSpec.noSpec = Except.ok (fun _ _ => false))
    ∧ (∀ df : DF, getMatchingCols df (fun _ _ => false) = [])
    ∧ (∀ f, convertToFunc (ColSpec.funcSpec f) = Except.ok f)
    ∧ (convertToFunc ColSpec.otherSpec = Except.error "AssertionError")
    ∧ (∀ (df : DF) (labelCol : String) (labelList : Option (List Value))
        (catCols numCols : ColSpec) (sep : String) (et : Option String)
        (tr : Option NumTransformer) (etv : Option (List String))
        (ret : Option String) (debug : Bool),
        loadData df ColSpec.otherSpec labelCol labelList catCols numCols sep et
          tr etv ret debug = Except.error "AssertionError") := by
  refine ⟨rfl, ?_, fun f => rfl, rfl, ?_⟩
  · intro df
    simp [getMatchingCols]
  · intro df labelCol labelList catCols numCols sep et tr etv ret debug
    rfl

/-- C9: the per-split pipeline is only defined for splits with at least one
row — `load_data` unconditionally reads the first aggregated text
(`texts_list[0]`), so processing an empty table can never produce a
FeatureBundle: the call fails for every configuration. -/
theorem c9_empty_split_fails (df : DF) (textCols catCols numCols : ColSpec)
    (labelCol : String) (labelList : Option (List Value)) (sep : String)
    (et : Option String) (tr : Option NumTransformer) (etv : Option (List String))
    (ret : Option String) (debug : Bool) (hempty : df.data = []) :
    exceptIsOk (loadData df textCols labelCol labelList catCols numCols sep et tr
      etv ret debug) = false := by
  cases h1 : convertToFunc textCols with
  | error e =>
      exact loadData_not_ok_of_bad_spec df textCols catCols numCols labelCol
        labelList sep et tr etv ret debug (Or.inl ⟨e, h1⟩)
  | ok textF =>
      cases h2 : convertToFunc catCols with
      | error e =>
          exact loadData_not_ok_of_bad_spec df textCols catCols numCols labelCol
            labelList sep et tr etv ret debug (Or.inr (Or.inl ⟨e, h2⟩))
      | ok catF =>
          cases h3 : convertToFunc numCols with
          | error e =>
              exact loadData_not_ok_of_bad_spec df textCols catCols numCols labelCol
                labelList sep et tr etv ret debug (Or.inr (Or.inr ⟨e, h3⟩))
          | ok numF =>
              rw [loadData_error_of_empty df textCols catCols numCols labelCol
                labelList sep et tr etv ret debug textF catF numF h1 h2 h3 hempty]
              rfl

/-- C9 witness: the empty-split failure theorem applied to a concrete empty
table with a concrete configuration. -/
theorem c9_empty_split_fails_witness :
    c9Df.data = []
    ∧ exceptIsOk (loadData c9Df (ColSpec.listSpec ["t"]) "t" Option.none
        ColSpec.noSpec ColSpec.noSpec " " Option.none Option.none Option.none
        Option.none false) = false :=
  ⟨rfl, c9_empty_split_fails c9Df (ColSpec.listSpec ["t"]) ColSpec.noSpec
    ColSpec.noSpec "t" Option.none " " Option.none Option.none Option.none
    Option.none false rfl⟩

/-- C5: in every matrix of numerical columns `load_num_feats` produces
(train, val, or test alike), a missing numeric cell is imputed with the
median of its own column computed from the same table being processed, and a
present numeric cell passes through unchanged. -/
theorem c5_median_imputation (df : DF) (f : DF → String → Bool)
    (m : List (List (Option ℚ))) (hm : (loadNumFeats df f).1 = some m)
    (i j : Nat) (p : Int × List Value) (hp : df.data.get? i = some p)
    (hlen : p.2.length = df.cols.length)
    (c : String) (hc : (getMatchingCols df f).get? j = some c) :
    (m.get? i).bind (fun row => row.get? j)
      = some (if (rowGet df.cols p.2 c).isNA = true
              then colMedian df c
              else (rowGet df.cols p.2 c).toNum) := by
  have hcmem : c ∈ getMatchingCols df f := List.get?_mem hc
  have hccols : c ∈ df.cols := (List.mem_filter.mp hcmem).1
  have hcontains : (getMatchingCols df f).contains c = true :=
    List.elem_eq_true_of_mem hcmem
  rw [loadNumFeats_fst_some df f m hm]
  have himp : (imputedDF df f).data.get? i
      = some (p.1, imputeRow df.cols (getMatchingCols df f) (colMedian df) p.2) := by
    show ((df.data.map (fun p => (p.1,
        imputeRow df.cols (getMatchingCols df f) (colMedian df) p.2))).get? i) = _
    rw [List.get?_map, hp]
    rfl
  rw [List.get?_map, himp]
  simp only [Option.map_some', Option.some_bind]
  rw [List.get?_map, hc]
  simp only [Option.map_some']
  have hrow : rowGet df.cols
      (imputeRow df.cols (getMatchingCols df f) (colMedian df) p.2) c
      = imputeVal (colMedian df c) (rowGet df.cols p.2 c) :=
    rowGet_imputeRow_mem df.cols (getMatchingCols df f) (colMedian df) p.2 c
      hccols hcontains hlen
  rw [hrow]
  rcases hv : rowGet df.cols p.2 c with q | s
  · cases q with
    | none =>
        cases hmed : colMedian df c with
        | none => simp [imputeVal, Value.isNA, Value.toNum, hmed]
        | some mq => simp [imputeVal, Value.isNA, Value.toNum, hmed]
    | some q => simp [imputeVal, Value.isNA, Value.toNum]
  · simp [imputeVal, Value.isNA, Value.toNum]

/-- C5 witness: the imputation theorem applied to a concrete two-row table
whose column "x" holds a missing cell and the value 4 — the missing cell of
row 0 reads back as the column's own median 4. -/
theorem c5_median_imputation_witness :
    (loadNumFeats c5wDf c5wF).1 = some [[some 4], [some 4]]
    ∧ (([[some 4], [some 4]] : List (List (Option ℚ))).get? 0).bind
        (fun row => row.get? 0)
      = some (if (rowGet c5wDf.cols [Value.num Option.none] "x").isNA = true
              then colMedian c5wDf "x"
              else (rowGet c5wDf.cols [Value.num Option.none] "x").toNum) :=
  ⟨rfl, c5_median_imputation c5wDf c5wF [[some 4], [some 4]] rfl 0 0
    (0, [Value.num Option.none]) rfl rfl "x" rfl⟩

/-- C10: loading numerical features writes the median-imputed values back
into the caller's table, so the table stored in the FeatureBundle is the
imputed table, while every non-numerical column of it is unchanged. -/
theorem c10_inplace_imputation (df : DF) (textCols : ColSpec) (labelCol : String)
    (labelList : Option (List Value)) (catCols : ColSpec) (nl : List String)
    (sep : String) (et : Option String) (tr : Option NumTransformer)
    (etv : Option (List String)) (ret : Option String) (debug : Bool)
    (b : Bundle) (tOut : Option NumTransformer)
    (h : loadData df textCols labelCol labelList catCols (ColSpec.listSpec nl)
      sep et tr etv ret debug = .ok (b, tOut))
    (c : String) (hcc : c ∈ df.cols) (hnc : nl.contains c = false) :
    b.df = imputedDF (debugTrunc debug df) (fun _ x => nl.contains x)
    ∧ colValues b.df c = colValues (debugTrunc debug df) c := by
  have h3 : convertToFunc (ColSpec.listSpec nl)
      = .ok (fun _ x => nl.contains x) := rfl
  cases h1 : convertToFunc textCols with
  | error e =>
      have := loadData_not_ok_of_bad_spec df textCols catCols (ColSpec.listSpec nl)
        labelCol labelList sep et tr etv ret debug (Or.inl ⟨e, h1⟩)
      rw [h] at this
      cases this
  | ok textF =>
  cases h2 : convertToFunc catCols with
  | error e =>
      have := loadData_not_ok_of_bad_spec df textCols catCols (ColSpec.listSpec nl)
        labelCol labelList sep et tr etv ret debug (Or.inr (Or.inl ⟨e, h2⟩))
      rw [h] at this
      cases this
  | ok catF =>
      rw [loadData_eq df textCols catCols (ColSpec.listSpec nl) labelCol labelList
        sep et tr etv ret debug textF catF (fun _ x => nl.contains x) h1 h2 h3] at h
      dsimp only at h
      split at h
      · cases h
      · have hb : b.df = (loadNumFeats (debugTrunc debug df)
            (fun _ x => nl.contains x)).2 := by
          have := (Prod.mk.injEq _ _ _ _).mp (Except.ok.inj h)
          rw [← this.1]
        rw [loadNumFeats_snd] at hb
        refine ⟨hb, ?_⟩
        rw [hb]
        have hcols : (debugTrunc debug df).cols = df.cols := by
          cases debug <;> rfl
        show ((imputedDF (debugTrunc debug df) (fun _ x => nl.contains x)).data.map
            (fun p => rowGet (imputedDF (debugTrunc debug df)
              (fun _ x => nl.contains x)).cols p.2 c))
          = (debugTrunc debug df).data.map
            (fun p => rowGet (debugTrunc debug df).cols p.2 c)
        simp only [imputedDF, List.map_map]
        refine List.map_congr_left ?_
        intro p _
        simp only [Function.comp]
        exact rowGet_imputeRow_not_mem (debugTrunc debug df).cols
          (getMatchingCols (debugTrunc debug df) (fun _ x => nl.contains x))
          (colMedian (debugTrunc debug df)) p.2 c (hcols ▸ hcc)
          (by
            have : c ∉ getMatchingCols (debugTrunc debug df)
                (fun _ x => nl.contains x) := by
              intro hmem
              simp [getMatchingCols, List.mem_filter] at hmem
              have hcontra : nl.contains c = true :=
                List.elem_eq_true_of_mem hmem.2
              rw [hnc] at hcontra
              cases hcontra
            exact Bool.eq_false_iff.mpr (fun hcon =>
              this (List.mem_of_elem_eq_true hcon)))

/-- C2 counterexample: the claim "each split is truncated to at most its
first 50 rows before any fitting or transform occurs (including the
numerical-transformer fit)" is false: on a 51-row training split with
debug=True, the numerical transformer is fit on all 51 untruncated rows
(its fitted statistics hold 51 rows, not at most 50) — the truncation
happens only inside the per-split pass, after the fit. -/
theorem c2_debug_counterexample :
    ¬ (finalTransStatsLen (loadDataFromFolder c2Train51 Option.none c2Test1
        (ColSpec.listSpec ["t"]) "t" Option.none Option.none
        (ColSpec.listSpec ["x"]) " " EncodeType.null "quantile_normal"
        Option.none Option.none true) ≤ 50) := by
  have h : finalTransStatsLen (loadDataFromFolder c2Train51 Option.none c2Test1
      (ColSpec.listSpec ["t"]) "t" Option.none Option.none
      (ColSpec.listSpec ["x"]) " " EncodeType.null "quantile_normal"
      Option.none Option.none true) = 51 := rfl
  rw [h]
  omega

/-- C2 (amended): with debug=True, each split is truncated to its first 50
rows at the start of the per-split pass only — the union categorical fit and
the numerical-transformer fit operate on the full, untruncated tables — and
each produced FeatureBundle has row count min(50, original_row_count) of its
split (row count of the table entering its per-split pass; here stated for
runs without a union re-split, where that table is the original split). -/
theorem c2_debug_truncation (trainDf testDf : DF) (valDf : Option DF)
    (textCols : ColSpec) (labelCol : String) (labelList : Option (List Value))
    (categoricalCols : Option (List String)) (numericalCols : ColSpec)
    (sep : String) (method : String) (etv : Option (List String))
    (ret : Option String) (tb : Bundle) (vb : Option Bundle) (sb : Bundle)
    (tfin : Option NumTransformer)
    (h : loadDataFromFolder trainDf valDf testDf textCols labelCol labelList
      categoricalCols numericalCols sep EncodeType.null method etv ret true
      = .ok (tb, vb, sb, tfin)) :
    tb.df.data.length = min 50 trainDf.data.length
    ∧ sb.df.data.length = min 50 testDf.data.length
    ∧ vb.map (fun b => b.df.data.length) = valDf.map (fun v => min 50 v.data.length)
    ∧ tb.texts.length = tb.df.data.length
    ∧ tb.labels.length = tb.df.data.length
    ∧ sb.texts.length = sb.df.data.length
    ∧ sb.labels.length = sb.df.data.length := by
  obtain ⟨pr, hfit, hps⟩ := folder_null_inv trainDf valDf testDf textCols labelCol
    labelList categoricalCols numericalCols sep method etv ret true _ h
  have hlen2 : pr.2.data.length = trainDf.data.length := by
    rcases fitNumTransformer_ok_inv method numericalCols trainDf pr hfit with
      ⟨_, hpr⟩ | ⟨numF, m, _, _, _, hpr⟩
    · rw [hpr]
    · rw [hpr]
      exact loadNumFeats_snd_length trainDf numF
  obtain ⟨pr1, pr2, hld1, hld2, htb, hsb, hrest⟩ :=
    perSplitPasses_ok_inv pr.2 valDf testDf textCols labelCol labelList
      (catSpecOf categoricalCols) numericalCols sep Option.none pr.1 etv ret true
      tb vb sb tfin hps
  have hp1 := loadData_ok_parts pr.2 textCols (catSpecOf categoricalCols)
    numericalCols labelCol labelList sep Option.none pr.1 etv ret true pr1.1 pr1.2
    (by rw [hld1])
  have hp2 := loadData_ok_parts testDf textCols (catSpecOf categoricalCols)
    numericalCols labelCol labelList sep Option.none pr1.2 etv ret true pr2.1 pr2.2
    (by rw [hld2])
  subst htb
  subst hsb
  refine ⟨?_, ?_, ?_, hp1.2.2.1, hp1.2.2.2, hp2.2.2.1, hp2.2.2.2⟩
  · rw [hp1.2.1, debugTrunc_true_length, hlen2]
  · rw [hp2.2.1, debugTrunc_true_length]
  · rcases hrest with ⟨hvd, hvb, _⟩ | ⟨v, pr3, hvd, hld3, hvb, _⟩
    · rw [hvd, hvb]
      rfl
    · have hp3 := loadData_ok_parts v textCols (catSpecOf categoricalCols)
        numericalCols labelCol labelList sep Option.none pr2.2 etv ret true
        pr3.1 pr3.2 (by rw [hld3])
      rw [hvd, hvb]
      show some pr3.1.df.data.length = some (min 50 v.data.length)
      rw [hp3.2.1, debugTrunc_true_length]

/-- C2 witness: the amended truncation theorem applied to a concrete
debug=True run over one-row train and test splits (min(50, 1) = 1). -/
theorem c2_debug_truncation_witness :
    loadDataFromFolder c3Train Option.none c3Test (ColSpec.listSpec ["t"]) "t"
      Option.none Option.none (ColSpec.listSpec ["x"]) " " EncodeType.null
      "none" Option.none Option.none true
      = .ok (c3wTrainBundle, Option.none, c3wTestBundle, Option.none)
    ∧ c3wTrainBundle.df.data.length = min 50 c3Train.data.length :=
  ⟨rfl, (c2_debug_truncation c3Train c3Test Option.none (ColSpec.listSpec ["t"])
    "t" Option.none Option.none (ColSpec.listSpec ["x"]) " " "none" Option.none
    Option.none c3wTrainBundle Option.none c3wTestBundle Option.none rfl).1⟩

/-- C3 counterexample: the claim "fit on the training split's numerical
columns only, for every call" is false.  With the default one-hot scheme and
two single-row splits that share row label 0 (an input the pipeline accepts,
each CSV using its own 0-based index), the union re-split training table
contains both rows, so the transformer is fit on a two-row matrix (the values
2 and 3, the latter the test split's) even though the training split has a
single row: the fitted statistics are not the training split's numerical
columns only. -/
theorem c3_fit_on_train_counterexample :
    finalTransStatsLen (loadDataFromFolder c3cexTrain Option.none c3cexTest
        (ColSpec.listSpec ["t"]) "t" Option.none (some ["c"])
        (ColSpec.listSpec ["x"]) " " EncodeType.ohe "quantile_normal"
        Option.none Option.none false) = 2
    ∧ c3cexTrain.data.length = 1
    ∧ (2 : Nat) ≠ 1 := by
  refine ⟨rfl, rfl, by decide⟩

/-- C3 (amended): the numerical normalizer is constructed and fit exactly
once per preparation call, on the numerical columns of the training table
produced by the union categorical step — the original training split whenever
no union re-split occurs (scheme none) or the row labels are globally unique
— and the per-split passes are transform-only: for every successful call, the
final transformer state equals the state immediately after that single fit
(fit count 1, statistics equal to that training table's numerical matrix),
unchanged by transforming train, val, and test. -/
theorem c3_transformer_fit_once (trainDf testDf : DF) (valDf : Option DF)
    (textCols : ColSpec) (labelCol : String) (labelList : Option (List Value))
    (categoricalCols : Option (List String)) (numericalCols : ColSpec)
    (sep : String) (scheme : EncodeType) (method : String)
    (etv : Option (List String)) (ret : Option String) (debug : Bool)
    (hmethod : method = "yeo_johnson" ∨ method = "box_cox"
      ∨ method = "quantile_normal")
    (t' : DF) (v' : Option DF) (s' : DF) (cc' : Option (List String))
    (et' : EncodeType)
    (hu : unionCatStep trainDf valDf testDf categoricalCols scheme
      = .ok (t', v', s', cc', et'))
    (numF : DF → String → Bool) (hF : convertToFunc numericalCols = .ok numF)
    (m : List (List (Option ℚ))) (hm : (loadNumFeats t' numF).1 = some m)
    (tb sb : Bundle) (vb : Option Bundle) (tfin : Option NumTransformer)
    (h : loadDataFromFolder trainDf valDf testDf textCols labelCol labelList
      categoricalCols numericalCols sep scheme method etv ret debug
      = .ok (tb, vb, sb, tfin)) :
    tfin = some ⟨method, 1, some m⟩ := by
  obtain ⟨pr, hfit, hps⟩ := folder_union_ok_inv trainDf valDf testDf textCols
    labelCol labelList categoricalCols numericalCols sep scheme method etv ret
    debug t' v' s' cc' et' hu _ h
  rcases fitNumTransformer_ok_inv method numericalCols t' pr hfit with
    ⟨hfalse, _⟩ | ⟨numF', m', _, hF', hm', hpr⟩
  · rcases hmethod with rfl | rfl | rfl <;> exact absurd hfalse (by decide)
  · rw [hF] at hF'
    have hnumF := Except.ok.inj hF'
    rw [← hnumF] at hm' hpr
    rw [hm] at hm'
    have hm'' : m' = m := (Option.some.inj hm').symm
    subst hm''
    subst hpr
    obtain ⟨pr1, pr2, hld1, hld2, _, _, hrest⟩ :=
      perSplitPasses_ok_inv _ v' s' textCols labelCol labelList
        (catSpecOf cc') numericalCols sep (encodeTypeStrOf et') _
        etv ret debug tb vb sb tfin hps
    have hp1 := (loadData_ok_parts _ textCols (catSpecOf cc')
      numericalCols labelCol labelList sep (encodeTypeStrOf et') _ etv ret debug
      pr1.1 pr1.2 (by rw [hld1])).1
    have hp2 := (loadData_ok_parts s' textCols (catSpecOf cc')
      numericalCols labelCol labelList sep (encodeTypeStrOf et') pr1.2 etv ret
      debug pr2.1 pr2.2 (by rw [hld2])).1
    rcases hrest with ⟨_, _, htfin⟩ | ⟨v, pr3, _, hld3, _, htfin⟩
    · rw [htfin, hp2, hp1]
    · have hp3 := (loadData_ok_parts v textCols (catSpecOf cc')
        numericalCols labelCol labelList sep (encodeTypeStrOf et') pr2.2 etv ret
        debug pr3.1 pr3.2 (by rw [hld3])).1
      rw [htfin, hp3, hp2, hp1]

/-- C3 witness: the amended fit-once theorem applied to a concrete
quantile-normal run with no union re-split — the final transformer state
records fit count 1 and the training table's (single-row) numerical matrix
as its statistics. -/
theorem c3_transformer_fit_once_witness :
    unionCatStep c3Train Option.none c3Test Option.none EncodeType.null
      = .ok (c3Train, Option.none, c3Test, Option.none, EncodeType.null)
    ∧ (loadNumFeats c3Train (fun _ x => (["x"] : List String).contains x)).1
      = some [[some 2]]
    ∧ loadDataFromFolder c3Train Option.none c3Test (ColSpec.listSpec ["t"]) "t"
        Option.none Option.none (ColSpec.listSpec ["x"]) " " EncodeType.null
        "quantile_normal" Option.none Option.none false
      = .ok (c3wTrainBundle, Option.none, c3wTestBundle,
          some ⟨"quantile_normal", 1, some [[some 2]]⟩)
    ∧ (some ⟨"quantile_normal", 1, some [[some 2]]⟩ : Option NumTransformer)
      = some ⟨"quantile_normal", 1, some [[some 2]]⟩ :=
  ⟨rfl, rfl, rfl, c3_transformer_fit_once c3Train c3Test Option.none
    (ColSpec.listSpec ["t"]) "t" Option.none Option.none (ColSpec.listSpec ["x"])
    " " EncodeType.null "quantile_normal" Option.none Option.none false
    (Or.inr (Or.inr rfl)) c3Train Option.none c3Test Option.none EncodeType.null
    rfl (fun _ x => (["x"] : List String).contains x) rfl [[some 2]] rfl
    c3wTrainBundle c3wTestBundle Option.none
    (some ⟨"quantile_normal", 1, some [[some 2]]⟩) rfl⟩

/-- C4: with the one-hot scheme, the categorical column list used by the
per-split pass is the single list recomputed on the union, the matching-column
lists resolved on the re-split train, val, and test tables are identical in
content and order, and the scheme handed to the per-split pass is downgraded
to pass-through (`None`). -/
theorem c4_ohe_consistent_columns (trainDf testDf : DF) (valDf : Option DF)
    (cc : List String)
    (hcc : ∀ c ∈ cc, c ∈ (unionOf trainDf valDf testDf).cols) :
    (getMatchingCols (oheUnionStep trainDf valDf testDf cc).1
        (fun _ x => ((oheUnionStep trainDf valDf testDf cc).2.2.2).contains x)
      = getMatchingCols (oheUnionStep trainDf valDf testDf cc).2.2.1
        (fun _ x => ((oheUnionStep trainDf valDf testDf cc).2.2.2).contains x))
    ∧ (∀ v, (oheUnionStep trainDf valDf testDf cc).2.1 = some v →
        getMatchingCols v
          (fun _ x => ((oheUnionStep trainDf valDf testDf cc).2.2.2).contains x)
          = getMatchingCols (oheUnionStep trainDf valDf testDf cc).1
            (fun _ x => ((oheUnionStep trainDf valDf testDf cc).2.2.2).contains x))
    ∧ unionCatStep trainDf valDf testDf (some cc) EncodeType.ohe
        = .ok ((oheUnionStep trainDf valDf testDf cc).1,
            (oheUnionStep trainDf valDf testDf cc).2.1,
            (oheUnionStep trainDf valDf testDf cc).2.2.1,
            some (oheUnionStep trainDf valDf testDf cc).2.2.2, EncodeType.null)
    ∧ convertToFunc (catSpecOf (some (oheUnionStep trainDf valDf testDf cc).2.2.2))
        = .ok (fun _ x => ((oheUnionStep trainDf valDf testDf cc).2.2.2).contains x) := by
  refine ⟨rfl, ?_, rfl, rfl⟩
  intro v hv
  cases valDf with
  | none => exact Option.noConfusion hv
  | some v0 =>
      have : (getDummies (unionOf trainDf (some v0) testDf) cc).loc v0.index = v :=
        Option.some.inj hv
      rw [← this]
      rfl

/-- C4 witness: the one-hot consistency theorem applied to concrete one-row
train, val, and test splits — the val split's matching-column list equals the
train split's. -/
theorem c4_ohe_consistent_columns_witness :
    (oheUnionStep c1wTrain (some c4wVal) c1wTest ["c"]).2.1 = some c4wValSplit
    ∧ getMatchingCols c4wValSplit
        (fun _ x => ((oheUnionStep c1wTrain (some c4wVal) c1wTest ["c"]).2.2.2).contains x)
      = getMatchingCols (oheUnionStep c1wTrain (some c4wVal) c1wTest ["c"]).1
        (fun _ x => ((oheUnionStep c1wTrain (some c4wVal) c1wTest ["c"]).2.2.2).contains x) :=
  ⟨rfl, (c4_ohe_consistent_columns c1wTrain c1wTest (some c4wVal) ["c"]
    (by decide)).2.1 c4wValSplit rfl⟩

/-- C8: when the validation table is absent, the preparation call yields an
absent (None) validation bundle for every scheme, and the union-fit
concatenation covers only the train and test tables. -/
theorem c8_missing_val (trainDf testDf : DF) (textCols : ColSpec)
    (labelCol : String) (labelList : Option (List Value))
    (categoricalCols : Option (List String)) (numericalCols : ColSpec)
    (sep : String) (scheme : EncodeType) (method : String)
    (etv : Option (List String)) (ret : Option String) (debug : Bool)
    (tb : Bundle) (vb : Option Bundle) (sb : Bundle)
    (tfin : Option NumTransformer)
    (h : loadDataFromFolder trainDf Option.none testDf textCols labelCol
      labelList categoricalCols numericalCols sep scheme method etv ret debug
      = .ok (tb, vb, sb, tfin)) :
    vb = Option.none
    ∧ presentDfs trainDf Option.none testDf = [trainDf, testDf]
    ∧ (concatRows (presentDfs trainDf Option.none testDf)).data
        = trainDf.data ++ testDf.data := by
  refine ⟨?_, rfl, by simp [presentDfs, concatRows]⟩
  cases scheme with
  | binary =>
      exact (folder_binary_not_ok trainDf Option.none testDf textCols labelCol
        labelList categoricalCols numericalCols sep method etv ret debug _ h).elim
  | null =>
      obtain ⟨pr, _, hps⟩ := folder_null_inv trainDf Option.none testDf textCols
        labelCol labelList categoricalCols numericalCols sep method etv ret
        debug _ h
      obtain ⟨_, _, _, _, _, _, hrest⟩ :=
        perSplitPasses_ok_inv pr.2 Option.none testDf textCols labelCol labelList
          (catSpecOf categoricalCols) numericalCols sep Option.none pr.1 etv ret
          debug tb vb sb tfin hps
      rcases hrest with ⟨_, hvb, _⟩ | ⟨v, pr3, hvd, _, _, _⟩
      · exact hvb
      · exact Option.noConfusion hvd
  | ohe =>
      cases categoricalCols with
      | none =>
          exact (folder_ohe_no_cats_not_ok trainDf Option.none testDf textCols
            labelCol labelList numericalCols sep method etv ret debug _ h).elim
      | some cc =>
          obtain ⟨pr, _, hps⟩ := folder_ohe_inv trainDf Option.none testDf
            textCols labelCol labelList cc numericalCols sep method etv ret
            debug _ h
          obtain ⟨_, _, _, _, _, _, hrest⟩ :=
            perSplitPasses_ok_inv pr.2 _ _ textCols labelCol labelList
              (catSpecOf (some (oheUnionStep trainDf Option.none testDf cc).2.2.2))
              numericalCols sep Option.none pr.1 etv ret debug tb vb sb tfin hps
          rcases hrest with ⟨_, hvb, _⟩ | ⟨v, pr3, hvd, _, _, _⟩
          · exact hvb
          · exact Option.noConfusion hvd

/-- C8 witness: the missing-validation theorem applied to a concrete run with
no validation table — the validation bundle comes back absent. -/
theorem c8_missing_val_witness :
    loadDataFromFolder c3Train Option.none c3Test (ColSpec.listSpec ["t"]) "t"
      Option.none Option.none (ColSpec.listSpec ["x"]) " " EncodeType.null
      "none" Option.none Option.none false
      = .ok (c3wTrainBundle, Option.none, c3wTestBundle, Option.none)
    ∧ (Option.none : Option Bundle) = Option.none :=
  ⟨rfl, (c8_missing_val c3Train c3Test (ColSpec.listSpec ["t"]) "t" Option.none
    Option.none (ColSpec.listSpec ["x"]) " " EncodeType.null "none" Option.none
    Option.none false c3wTrainBundle Option.none c3wTestBundle Option.none
    rfl).1⟩

/-- C10 witness: the in-place imputation theorem applied to a concrete
one-row table with numerical column "x" and text column "t". -/
theorem c10_inplace_imputation_witness :
    loadData c10wDf (ColSpec.listSpec ["t"]) "t" Option.none ColSpec.noSpec
      (ColSpec.listSpec ["x"]) " " Option.none Option.none Option.none
      Option.none false = .ok (c10wBundle, Option.none)
    ∧ (c10wBundle.df = imputedDF (debugTrunc false c10wDf)
        (fun _ x => (["x"] : List String).contains x)
      ∧ colValues c10wBundle.df "t" = colValues (debugTrunc false c10wDf) "t") :=
  ⟨rfl, c10_inplace_imputation c10wDf (ColSpec.listSpec ["t"]) "t" Option.none
    ColSpec.noSpec ["x"] " " Option.none Option.none Option.none Option.none
    false c10wBundle Option.none rfl "t" (by decide) rfl⟩

end MMTK
